import Mathlib

/-!
Shallow embedding of the non-transitive dice game (src/app.js, with the
earlier variant src/unnamed/part_000) and proofs about its fairness and
scoring logic.

Conventions of the embedding:
* JS numbers that the program has already checked to be integers are
  modelled as `Int` (face values) or `Nat` (indices, ranges, scores).
* A `parseInt` result is `Option Int`: `none` models `NaN`.
* JS array access `a[i]` is `Option`-valued where the index may be out of
  range (`undefined` becomes `none`); JS `%` on integers is truncated
  remainder, `Int.tmod`.
* `crypto.randomInt(range)` (a Node builtin, not repository code) is
  modelled by an explicit draw parameter together with its documented
  contract `draw < range`; `Math.random()*6 |> floor` likewise becomes an
  explicit draw.
* The HMAC-SHA3-256 primitive is taken as an abstract function parameter
  `hmacFn : String → String → String` (key, message); the repository code
  built on it is embedded on top of that parameter.
-/

namespace DiceSpec

/-- `FairRandom.generateHMAC` (src/app.js lines 9-11): keyed digest of the
decimal string representation of the committed value. -/
def generateHMAC (hmacFn : String → String → String) (key : String) (value : Nat) : String :=
  hmacFn key (toString value)

/-- Modelled from the spec: `verify(key, value, commitment)` (§4.1) is
described in the spec but absent from src/ (only the commit side,
`generateHMAC`, exists there).  It recomputes `commit(key, value)` and
compares for exact equality, returning a Bool — a mismatching or malformed
commitment string yields `false`, never an exception. -/
def verify (hmacFn : String → String → String) (key : String) (value : Nat)
    (commitment : String) : Bool :=
  generateHMAC hmacFn key value == commitment

/-- The `value` component of `FairRandom.getFairRandom` (src/app.js lines
13-16): a single call to `crypto.randomInt(range)`, whose result is the
explicit `draw` parameter, paired with its commitment. -/
def getFairRandom (hmacFn : String → String → String) (range : Nat) (key : String)
    (draw : Nat) : Nat × String :=
  (draw, generateHMAC hmacFn key draw)

/-- `FairRandom.getFairRandom` of the variant src/unnamed/part_000 lines
13-19: a do/while loop that redraws while the drawn value is `>= range`.
`draws` is the stream of successive `crypto.randomInt(range)` results and
`fuel` bounds the number of iterations (the JS loop is unbounded; `none`
models non-termination within `fuel` draws). -/
def getFairRandomRetry (hmacFn : String → String → String) (range : Nat) (key : String)
    (draws : Nat → Nat) : Nat → Option (Nat × String)
  | 0 => none
  | fuel + 1 =>
    let v := draws 0
    if range ≤ v then getFairRandomRetry hmacFn range key (fun n => draws (n + 1)) fuel
    else some (v, generateHMAC hmacFn key v)

/-- A die as validated by the `Dice` constructor (src/app.js lines 20-25):
exactly 6 sides.  (Positivity of the faces is checked by the constructor
too — see `validSides` — but is not needed for resolution.) -/
structure Dice where
  sides : List Int
  sides_len : sides.length = 6

/-- `Dice.roll` (src/app.js lines 27-29): `this.sides[index % this.sides.length]`
for a nonnegative index.  For `i : Nat` the access is always in range, so the
`getD` default is never used (see `roll_eq_get`). -/
def Dice.roll (d : Dice) (i : Nat) : Int :=
  (d.sides.get? (i % d.sides.length)).getD 0

/-- `Dice.roll` (src/app.js lines 27-29) at an arbitrary JS integer index:
JS `%` is truncated remainder (`Int.tmod`), and `sides[r]` is `undefined`
(here `none`) when `r` is negative. -/
def Dice.rollJS (d : Dice) (i : Int) : Option Int :=
  let r := Int.tmod i (d.sides.length : Int)
  if r < 0 then none else d.sides.get? r.toNat

/-- `Dice.roll` of the variant src/unnamed/part_000 lines 30-32:
`this.sides[Math.floor(Math.random() * this.sides.length)]` — the face is
drawn at an independent random index `draw`, ignoring any combined index. -/
def Dice.rollIndep (d : Dice) (draw : Nat) : Option Int :=
  d.sides.get? draw

/-- The round combination generalized over the range `R` (spec §4.4):
`combined index = (c + value_h) mod R`.  src/app.js line 76 is the `R = 6`
instance. -/
def combine (R c v : Nat) : Nat := (c + v) % R

/-- `finalIndex` of `DiceGame.playRound` (src/app.js line 76):
`(userNumber + value) % 6`. -/
def finalIndex (userNumber value : Nat) : Nat := (userNumber + value) % 6

/-- The face resolution of `DiceGame.playRound` (src/app.js lines 76-80):
both dice are resolved at the same `finalIndex`. -/
def playRoundFaces (playerDice computerDice : Dice) (userNumber value : Nat) : Int × Int :=
  let idx := finalIndex userNumber value
  (playerDice.roll idx, computerDice.roll idx)

/-- The face resolution of `DiceGame.playRound` in the variant
src/unnamed/part_000 lines 80-81: each die is rolled at its own independent
random draw; the computed combined index is discarded. -/
def playRoundFacesIndep (playerDice computerDice : Dice) (i j : Nat) :
    Option Int × Option Int :=
  (playerDice.rollIndep i, computerDice.rollIndep j)

/-- The standard die `[1,2,3,4,5,6]`. -/
def stdDie : Dice := ⟨[1, 2, 3, 4, 5, 6], rfl⟩

/-- Accumulated series scores (src/app.js line 37). -/
structure Scores where
  user : Nat
  computer : Nat
deriving DecidableEq, Repr

/-- The scoring step of `DiceGame.playRound` (src/app.js lines 82-90). -/
def scoreRound (s : Scores) (userRoll computerRoll : Int) : Scores :=
  if userRoll > computerRoll then { s with user := s.user + 1 }
  else if userRoll < computerRoll then { s with computer := s.computer + 1 }
  else s

inductive Player where
  | user
  | computer
deriving DecidableEq, Repr

/-- The final comparison of `DiceGame.playGame` (src/app.js line 110):
`this.scores.user > this.scores.computer ? "you win" : "I win"`. -/
def seriesWinner (s : Scores) : Player :=
  if s.user > s.computer then Player.user else Player.computer

/-- The validation of the `Dice` constructor (src/app.js lines 21-23) on a
parsed configuration: a list of JS numbers (`none` = `NaN` / non-integer),
accepted iff it has exactly 6 entries, all integers `≥ 1`.  This is the
negation of `sides.length !== 6 || sides.some(x => !Number.isInteger(x) || x < 1)`. -/
def validSides (xs : List (Option Int)) : Bool :=
  xs.length == 6 && xs.all fun o => match o with
    | some x => decide (1 ≤ x)
    | none => false

theorem validSides_length {xs : List (Option Int)} (h : validSides xs = true) :
    xs.length = 6 := by
  have := (Bool.and_eq_true ..).mp h
  exact beq_iff_eq.mp this.1

/-- The `Dice` constructor (src/app.js lines 20-25): throws (here `.error`)
unless the configuration passes `validSides`; otherwise the die holds the
(necessarily integer) sides. -/
def mkDice (xs : List (Option Int)) : Except String Dice :=
  if h : validSides xs = true then
    .ok ⟨xs.map (·.getD 0), by rw [List.length_map]; exact validSides_length h⟩
  else
    .error "Each dice must have exactly 6 integer sides greater than 0."

/-- The `DiceGame` constructor (src/app.js lines 33-38): rejects fewer than
3 configurations, then constructs every die (the first invalid configuration
throws).  All of this runs before any round logic. -/
def mkDiceGame (args : List (List (Option Int))) : Except String (List Dice) :=
  if args.length < 3 then .error "At least 3 dice configurations must be provided."
  else args.mapM mkDice

/-- Whether an `Except` is an error (a thrown JS exception). -/
def isErr {ε α : Type} : Except ε α → Bool
  | .error _ => true
  | .ok _ => false

/-- Comma splitting of a character list (`arg.split(',')`), with `acc`
holding the reversed characters of the current piece. -/
def splitCommaAux : List Char → List Char → List (List Char)
  | [], acc => [acc.reverse]
  | c :: cs, acc =>
    if c = ',' then acc.reverse :: splitCommaAux cs []
    else splitCommaAux cs (c :: acc)

/-- `Number(t)` for the plain decimal strings appearing in dice
configurations: all-digit pieces parse to their value, anything else
(including the empty piece) is `NaN` (`none`). -/
def parseNumChars (cs : List Char) : Option Int :=
  match cs with
  | [] => none
  | _ =>
    if cs.all (fun c => c.isDigit) then
      some (cs.foldl (fun a c => a * 10 + ((c.toNat : Int) - 48)) 0)
    else none

/-- `arg.split(',').map(Number)` (src/app.js line 35) for the well-behaved
decimal strings that appear in dice configurations: split on commas and
parse each piece as an integer (`none` = `NaN`). -/
def parseConfig (s : String) : List (Option Int) :=
  (splitCommaAux s.toList []).map parseNumChars

/-- The validated-input do/while loop shared by `DiceGame.chooseDice`
(src/app.js lines 57-61) and the contribution prompt of
`DiceGame.playRound` (src/app.js lines 70-74): read a parsed input from the
stream `s`, accept the first one that is an integer (`some`) satisfying
`valid`, re-prompt otherwise.  `fuel` bounds the iterations (`none` models
not obtaining a value within `fuel` prompts). -/
def requestLoop (valid : Int → Bool) (s : Nat → Option Int) : Nat → Option Int
  | 0 => none
  | fuel + 1 =>
    match s 0 with
    | some x => if valid x then some x else requestLoop valid (fun n => s (n + 1)) fuel
    | none => requestLoop valid (fun n => s (n + 1)) fuel

/-- The validity test of the die-selection prompt (src/app.js line 61):
`!(isNaN(choice) || choice < 0 || choice >= this.diceOptions.length)`. -/
def dieSelValid (numDice : Nat) (x : Int) : Bool :=
  decide (0 ≤ x) && decide (x < numDice)

/-- The validity test of the modulo-6 contribution prompt (src/app.js
line 74): `!(isNaN(userNumber) || userNumber < 0 || userNumber > 5)`. -/
def contribValid (x : Int) : Bool :=
  decide (0 ≤ x) && decide (x ≤ 5)

/-- Validity of a first-move guess per the spec (§6, §7): an integer in the
prompted range `{0, 1}`.  (The code never tests this — see
`determineFirstMove`.) -/
def guessValid (x : Int) : Bool :=
  decide (0 ≤ x) && decide (x ≤ 1)

/-- `DiceGame.determineFirstMove` (src/app.js lines 44-52) as a function of
the parsed guess and the house value: the single `parseInt` result is
compared with `===` against the house value and no validation loop exists —
`NaN` (or any non-matching integer) simply fails the comparison, so the
computer moves first. -/
def determineFirstMove (guess : Option Int) (value : Nat) : Player :=
  match guess with
  | some g => if g = (value : Int) then Player.user else Player.computer
  | none => Player.computer

/-- `DiceGame.determineFirstMove` against an input stream, also returning
how many inputs it consumed: exactly one, unconditionally. -/
def determineFirstMoveStream (s : Nat → Option Int) (value : Nat) : Player × Nat :=
  (determineFirstMove (s 0) value, 1)

/-- The opponent-die lookup of `DiceGame.playGame` (src/app.js lines
102/105): `this.diceOptions.find(d => d !== userDice)`.  The dice are
distinct heap objects (one `new Dice` per configuration, even when the face
lists coincide), so object identity is the position in `diceOptions`; the
lookup returns the index of the first die whose identity differs from the
chosen one. -/
def findOtherDice (numDice chosen : Nat) : Option Nat :=
  (List.range numDice).find? (fun i => i != chosen)

/-! ### Helper lemmas -/

theorem tmod_ofNat (m n : Nat) : Int.tmod (m : Int) (n : Int) = ((m % n : Nat) : Int) :=
  rfl

theorem requestLoop_valid {valid : Int → Bool} :
    ∀ (fuel : Nat) (s : Nat → Option Int) (x : Int),
      requestLoop valid s fuel = some x → valid x = true := by
  intro fuel
  induction fuel with
  | zero => intro s x h; simp [requestLoop] at h
  | succ f ih =>
    intro s x h
    unfold requestLoop at h
    cases hs : s 0 with
    | none => rw [hs] at h; exact ih _ _ h
    | some y =>
      rw [hs] at h
      have h' : (if valid y = true then some y
          else requestLoop valid (fun n => s (n + 1)) f) = some x := h
      cases hv : valid y with
      | true => rw [if_pos hv] at h'; cases h'; exact hv
      | false => rw [if_neg (by simp [hv])] at h'; exact ih _ _ h'

theorem isErr_bind_pure_cons {ε : Type} (x : Except ε (List Dice)) (d : Dice) :
    isErr (x >>= fun bs => pure (d :: bs)) = isErr x := by
  cases x <;> rfl

theorem mapM_mkDice_err (args : List (List (Option Int))) :
    isErr (args.mapM mkDice) = true ↔ ∃ cfg ∈ args, validSides cfg = false := by
  induction args with
  | nil =>
    have hnil : isErr (List.mapM mkDice ([] : List (List (Option Int)))) = false := rfl
    rw [hnil]
    simp
  | cons a l ih =>
    rw [List.mapM_cons]
    cases h : validSides a with
    | false =>
      have hd : mkDice a = .error "Each dice must have exactly 6 integer sides greater than 0." := by
        simp [mkDice, h]
      simp only [hd]
      constructor
      · intro _; exact ⟨a, List.mem_cons_self a l, h⟩
      · intro _; rfl
    | true =>
      cases hmk : mkDice a with
      | error e => simp [mkDice, h] at hmk
      | ok d =>
        have hred : ((Except.ok d : Except String Dice) >>= fun b =>
            (l.mapM mkDice) >>= fun bs => pure (b :: bs)) =
            ((l.mapM mkDice) >>= fun bs => pure (d :: bs)) := rfl
        rw [hred, isErr_bind_pure_cons, ih]
        simp [h]

/-! ### Claim theorems -/

/-- C1: in round resolution both participants' dice are resolved at the same
combined index `(c + value_h) mod 6`, so the resolved faces are a
deterministic function of the two dice and the two contributions; the
variant that draws each die's face independently at roll time (discarding
the combined index) is not equivalent: for the standard die against itself
with contributions `c = v = 0` the deterministic resolution gives faces
`(1, 1)`, while independent draws `(1, 0)` give `(2, 1)`. -/
theorem playRound_deterministic_not_indep :
    (∀ (d1 d2 : Dice) (c v : Nat),
      playRoundFaces d1 d2 c v = (d1.roll (combine 6 c v), d2.roll (combine 6 c v))) ∧
    (∃ i j : Nat, i < 6 ∧ j < 6 ∧
      playRoundFacesIndep stdDie stdDie i j ≠
        (some (playRoundFaces stdDie stdDie 0 0).1,
         some (playRoundFaces stdDie stdDie 0 0).2)) := by
  constructor
  · intro d1 d2 c v; rfl
  · exact ⟨1, 0, by decide, by decide, by decide⟩

/-- C2: for every range `R` and `v, c ∈ [0, R)`, the combined index is
`(c + v) mod R` and combination is exactly commutative; the code's
`finalIndex` is the `R = 6` instance of this combination. -/
theorem combine_comm_spec (R c v : Nat) (hc : c < R) (hv : v < R) :
    combine R c v = (c + v) % R ∧
    combine R c v = combine R v c ∧
    finalIndex c v = combine 6 c v := by
  refine ⟨rfl, ?_, rfl⟩
  unfold combine
  rw [Nat.add_comm]

/-- Witness for C2 at `R = 6`, `c = 2`, `v = 3`. -/
theorem combine_comm_spec_witness :
    combine 6 2 3 = (2 + 3) % 6 ∧ combine 6 2 3 = combine 6 3 2 ∧
    finalIndex 2 3 = combine 6 2 3 :=
  combine_comm_spec 6 2 3 (by decide) (by decide)

/-- C3 counterexample: `Dice.roll` is not total over the integers.  At the
JS integer index `-1`, `index % 6` is `-1` (truncated remainder), and
`sides[-1]` is `undefined` (`none`) — not the face `faces[(-1) mod 6] =
faces[5]` the claim promises. -/
theorem rollJS_negative_undefined : Dice.rollJS stdDie (-1) = none := by decide

/-- C3 amended: for every valid die and every *nonnegative* integer index
`i`, resolution is defined and returns `faces[i mod 6]`, and it is periodic:
`resolve(i) = resolve(i + 6*k)` for every nonnegative `k`. -/
theorem roll_total_spec (d : Dice) (i k : Nat) :
    d.rollJS (i : Int) = some (d.roll i) ∧
    d.roll i = (d.sides.get? (i % 6)).getD 0 ∧
    d.roll (i + 6 * k) = d.roll i := by
  have h6 : d.sides.length = 6 := d.sides_len
  have hlt : i % 6 < d.sides.length := by rw [h6]; exact Nat.mod_lt _ (by norm_num)
  refine ⟨?_, by rw [Dice.roll, h6], ?_⟩
  · rw [Dice.rollJS, Dice.roll, h6]
    show (if Int.tmod (i : Int) ((6 : Nat) : Int) < 0 then none
      else d.sides.get? (Int.tmod (i : Int) ((6 : Nat) : Int)).toNat) = _
    rw [tmod_ofNat]
    rw [if_neg (by exact Int.not_lt.mpr (Int.natCast_nonneg _))]
    rw [Int.toNat_natCast]
    rw [List.get?_eq_get hlt]
    rfl
  · rw [Dice.roll, Dice.roll, h6, Nat.add_mul_mod_self_left]

/-- C4: in every scoring round, a strictly greater resolved face wins the
round and that side's score increases by exactly one; equal faces are a tie
and neither score changes — there is no other tie-break. -/
theorem scoreRound_spec (s : Scores) (u c : Int) :
    (c < u → scoreRound s u c = ⟨s.user + 1, s.computer⟩) ∧
    (u < c → scoreRound s u c = ⟨s.user, s.computer + 1⟩) ∧
    (u = c → scoreRound s u c = s) := by
  unfold scoreRound
  refine ⟨fun h => ?_, fun h => ?_, fun h => ?_⟩
  · rw [if_pos h]
  · rw [if_neg (by omega), if_pos h]
  · rw [if_neg (by omega), if_neg (by omega)]

/-- Witness for C4: from `(0, 0)`, faces `5 > 3` give the user the round. -/
theorem scoreRound_spec_witness : scoreRound ⟨0, 0⟩ 5 3 = ⟨1, 0⟩ :=
  (scoreRound_spec ⟨0, 0⟩ 5 3).1 (by decide)

/-- C5 counterexample: on an exactly tied score the final comparison does
NOT declare the counterpart (the user) the winner — at scores `(2, 2)` the
code prints "I win the game!", i.e. the computer (house) wins. -/
theorem seriesWinner_tie_cex : seriesWinner ⟨2, 2⟩ = Player.computer := by decide

/-- C5 amended: the series winner is determined by comparing the
accumulated scores, a strictly higher score winning; on an exactly tied
score the comparison silently declares the house (the computer) the
winner. -/
theorem seriesWinner_spec (s : Scores) :
    (s.computer < s.user → seriesWinner s = Player.user) ∧
    (s.user < s.computer → seriesWinner s = Player.computer) ∧
    (s.user = s.computer → seriesWinner s = Player.computer) := by
  unfold seriesWinner
  refine ⟨fun h => ?_, fun h => ?_, fun h => ?_⟩
  · rw [if_pos h]
  · rw [if_neg (by omega)]
  · rw [if_neg (by omega)]

/-- Witness for C5 at scores `(3, 1)`. -/
theorem seriesWinner_spec_witness : seriesWinner ⟨3, 1⟩ = Player.user :=
  (seriesWinner_spec ⟨3, 1⟩).1 (by decide)

/-- C6: for every underlying HMAC primitive and all (key, value),
verifying the commitment produced for that pair succeeds; any mismatching
commitment string — including a malformed one — makes `verify` return
`false` (it is a total `Bool`-valued function and never throws). -/
theorem verify_spec (hmacFn : String → String → String) (key : String) (value : Nat) :
    verify hmacFn key value (generateHMAC hmacFn key value) = true ∧
    ∀ c : String, c ≠ generateHMAC hmacFn key value →
      verify hmacFn key value c = false := by
  constructor
  · simp [verify]
  · intro c hc
    simp [verify]
    exact fun h => absurd h.symm hc

/-- Witness for C6 with a concrete keyed-digest function: a round-trip
verification succeeds and the malformed commitment string "garbage" is
rejected as `false`. -/
theorem verify_spec_witness :
    verify (fun k m => k ++ ":" ++ m) "key" 3
      (generateHMAC (fun k m => k ++ ":" ++ m) "key" 3) = true ∧
    verify (fun k m => k ++ ":" ++ m) "key" 3 "garbage" = false :=
  ⟨(verify_spec (fun k m => k ++ ":" ++ m) "key" 3).1,
   (verify_spec (fun k m => k ++ ":" ++ m) "key" 3).2 "garbage" (by decide)⟩

/-- C7: for every range `R ≥ 1`, the fair-value generator returns the draw,
which lies in `[0, R)` by the contract of `crypto.randomInt`; the
rejection-retry variant of src/unnamed/part_000 terminates after its first
draw and computes exactly the direct variant's result, because the
primitive already returns a value in `[0, R)`. -/
theorem getFairRandom_retry_eq (hmacFn : String → String → String) (range : Nat)
    (key : String) (draws : Nat → Nat) (fuel : Nat)
    (hr : 1 ≤ range) (hd : ∀ n, draws n < range) :
    (getFairRandom hmacFn range key (draws 0)).1 < range ∧
    getFairRandomRetry hmacFn range key draws (fuel + 1) =
      some (getFairRandom hmacFn range key (draws 0)) := by
  have h0 : draws 0 < range := hd 0
  constructor
  · exact h0
  · unfold getFairRandomRetry
    rw [if_neg (by omega)]
    rfl

/-- Witness for C7 at `R = 6` with every draw equal to `3`. -/
theorem getFairRandom_retry_eq_witness :
    (getFairRandom (fun _ m => m) 6 "key" ((fun _ => 3) 0)).1 < 6 ∧
    getFairRandomRetry (fun _ m => m) 6 "key" (fun _ => 3) (0 + 1) =
      some (getFairRandom (fun _ m => m) 6 "key" ((fun _ => 3) 0)) :=
  getFairRandom_retry_eq (fun _ m => m) 6 "key" (fun _ => 3) 0 (by decide)
    (fun _ => (by decide : (3 : Nat) < 6))

/-- C8: game construction errors out before any round begins iff fewer than
3 dice configurations are supplied or some configuration is not exactly 6
integer entries all `≥ 1`; in particular the malformed die string `"1,2,3"`
(parsed to only 3 faces) is rejected even alongside two well-formed
configurations. -/
theorem mkDiceGame_error_iff :
    (∀ args : List (List (Option Int)),
      isErr (mkDiceGame args) = true ↔
        (args.length < 3 ∨ ∃ cfg ∈ args, validSides cfg = false)) ∧
    isErr (mkDiceGame
      [parseConfig "1,2,3", parseConfig "2,2,4,4,9,9", parseConfig "1,1,1,4,4,4"]) =
      true := by
  constructor
  · intro args
    unfold mkDiceGame
    by_cases hlen : args.length < 3
    · rw [if_pos hlen]
      simp [isErr, hlen]
    · rw [if_neg hlen]
      rw [mapM_mkDice_err]
      simp [hlen]
  · decide

/-- C9 counterexample: the counterpart's first-move guess is NOT validated.
With every input invalid (`parseInt` returning `NaN`, modelled as a
constantly-`none` stream), `determineFirstMove` still completes after
consuming exactly one input — treating the invalid guess as incorrect and
returning the computer — whereas the re-prompting loop used for the other
two inputs would keep re-prompting and never accept such a stream. -/
theorem determineFirstMove_no_validation_cex :
    determineFirstMoveStream (fun _ => none) 0 = (Player.computer, 1) ∧
    requestLoop guessValid (fun _ => none) 5 = none := by
  constructor
  · rfl
  · rfl

/-- C9 amended: the die-selection index and the modulo-6 contribution are
re-prompted until valid, so any value those loops deliver is an integer in
its valid range; the first-move guess, by contrast, is consumed without
validation and any invalid (or non-matching) guess is silently treated as
an incorrect guess, giving the computer the first move. -/
theorem inputValidation_spec :
    (∀ (n : Nat) (s : Nat → Option Int) (fuel : Nat) (x : Int),
      requestLoop (dieSelValid n) s fuel = some x → 0 ≤ x ∧ x < n) ∧
    (∀ (s : Nat → Option Int) (fuel : Nat) (x : Int),
      requestLoop contribValid s fuel = some x → 0 ≤ x ∧ x ≤ 5) ∧
    (∀ (g : Option Int) (v : Nat), v < 2 → guessValid (g.getD (-1)) = false →
      determineFirstMove g v = Player.computer) := by
  refine ⟨fun n s fuel x h => ?_, fun s fuel x h => ?_, fun g v hv hg => ?_⟩
  · have := requestLoop_valid fuel s x h
    simp [dieSelValid] at this
    exact_mod_cast this
  · have := requestLoop_valid fuel s x h
    simp [contribValid] at this
    exact this
  · cases g with
    | none => rfl
    | some y =>
      have hy : ¬ (0 ≤ y ∧ y ≤ 1) := by
        intro hcon
        simp [guessValid, hcon.1, hcon.2] at hg
      show (if y = (v : Int) then Player.user else Player.computer) = Player.computer
      rw [if_neg (by omega)]

/-- Witness for C9: a valid die selection among 3 dice, a valid
contribution, and an out-of-range guess `7` handing the computer the first
move. -/
theorem inputValidation_spec_witness :
    ((0 : Int) ≤ 2 ∧ (2 : Int) < 3) ∧ ((0 : Int) ≤ 4 ∧ (4 : Int) ≤ 5) ∧
    determineFirstMove (some 7) 1 = Player.computer :=
  ⟨inputValidation_spec.1 3 (fun _ => some 2) 1 2 (by decide),
   inputValidation_spec.2.1 (fun _ => some 4) 1 4 (by decide),
   inputValidation_spec.2.2 (some 7) 1 (by decide) (by decide)⟩

/-- C10: with at least 3 dice and a valid chosen index, the opponent-die
lookup returns the first die in configuration order whose object identity
(its position among the freshly constructed `Dice` objects) differs from
the chosen one — index 1 if die 0 was chosen, index 0 otherwise — and that
die is never the chosen one, so a round never pits a die against itself.
Face content plays no role: `findOtherDice` depends only on identities, so
dice with identical faces remain distinct options. -/
theorem findOtherDice_spec (n chosen : Nat) (h3 : 3 ≤ n) (hc : chosen < n) :
    findOtherDice n chosen = some (if chosen = 0 then 1 else 0) ∧
    (if chosen = 0 then 1 else 0) ≠ chosen := by
  obtain ⟨m, rfl⟩ : ∃ m, n = m + 3 := ⟨n - 3, by omega⟩
  unfold findOtherDice
  by_cases h0 : chosen = 0
  · subst h0
    rw [if_pos rfl]
    refine ⟨?_, by omega⟩
    rw [show m + 3 = (m + 2) + 1 from rfl, List.range_succ_eq_map]
    rw [show m + 2 = (m + 1) + 1 from rfl, List.range_succ_eq_map]
    rw [List.map_cons]
    rw [List.find?_cons_of_neg _ (by simp)]
    rw [List.find?_cons_of_pos _ (by simp)]
  · rw [if_neg h0]
    refine ⟨?_, fun h => h0 h.symm⟩
    rw [show m + 3 = (m + 2) + 1 from rfl, List.range_succ_eq_map]
    rw [List.find?_cons_of_pos _ (by simpa using Ne.symm h0)]

/-- Witness for C10: among 3 dice, choosing die 1 hands the opponent die 0. -/
theorem findOtherDice_spec_witness :
    findOtherDice 3 1 = some (if 1 = 0 then 1 else 0) ∧
    (if 1 = 0 then 1 else 0) ≠ 1 :=
  findOtherDice_spec 3 1 (by decide) (by decide)

end DiceSpec
